import Mathlib

/-!
Verification of the WebSocket frame decoder (`parse_frame` in
`src/bin/client.rs`) against its natural-language specification.

The decoder is embedded shallowly: bytes are natural numbers below 256 in a
`List Nat`, machine arithmetic on `u8`/`u32`/`u64` values is ordinary `Nat`
arithmetic (all intermediate values stay far below any relevant modulus), and
the three possible runtime outcomes of the Rust function — `Ok((consumed,
frame))`, `Err(e)`, and a panic (reachable through `copy_from_slice`, whose
contract aborts when source and destination lengths differ) — become the three
constructors of `PResult`.
-/

/-- Error type of the decoder, mirroring `enum ParseError` in the source. -/
inductive ParseError where
  | Unfinished
  | ReservedOpCode
  | ReservedBit
deriving DecidableEq, Repr

/-- Frame kinds, mirroring `enum OpCode` in the source. -/
inductive OpCode where
  | Continuation
  | Text
  | Binary
  | Close
  | Ping
  | Pong
deriving DecidableEq, Repr

/-- Decoded frame, mirroring `struct Frame` in the source.  The masking key is
a `u32` in the source; here it is the corresponding `Nat` (always below 2^32
since it is assembled from four bytes). -/
structure Frame where
  is_last_frag : Bool
  op_code : OpCode
  masking_key : Option Nat
  payload : List Nat
deriving DecidableEq, Repr

/-- Outcome of running `parse_frame`: a successful parse, a returned
`ParseError`, or a runtime panic (the Rust function can panic inside
`copy_from_slice` in the mask-extraction branch). -/
inductive PResult where
  | ok : Nat → Frame → PResult
  | err : ParseError → PResult
  | panicked : PResult
deriving DecidableEq, Repr

/-- Big-endian interpretation of a byte list, as done by `u32::from_be_bytes`
and `u64::from_be_bytes` on their fixed-size arrays. -/
def from_be_bytes (bs : List Nat) : Nat :=
  bs.foldl (fun acc b => acc * 256 + b) 0

/-- The opcode-nibble match in `parse_frame` (`match op { 0x0 => ..., _ =>
return Err(ReservedOpCode) }`); `none` stands for the early return. -/
def opOfNibble : Nat → Option OpCode
  | 0x0 => some OpCode.Continuation
  | 0x1 => some OpCode.Text
  | 0x2 => some OpCode.Binary
  | 0x8 => some OpCode.Close
  | 0x9 => some OpCode.Ping
  | 0xA => some OpCode.Pong
  | _ => none

/-- The extra length bytes consumed for a given base length field, i.e. the
`match len { 126 => 2, 127 => 8, _ => 0 }` inside `mask_offset` (a match on
two numeric literals, written as the equivalent if-chain). -/
def extra_len_bytes (len : Nat) : Nat :=
  if len = 126 then 2 else if len = 127 then 8 else 0

/-- The `payload_len` computation of `parse_frame` (`match len { 126 => ...,
127 => ..., _ => len as u64 }`, written as the equivalent if-chain), with the
early `return Err(Unfinished)` made explicit in `Except`.  In the `127` arm
the source copies `bytes[2..10]` into an 8-byte array and applies
`u64::from_be_bytes`. -/
def parse_len (bytes : List Nat) (len : Nat) : Except ParseError Nat :=
  if len = 126 then
    match bytes[2]? with
    | none => Except.error ParseError.Unfinished
    | some high =>
      match bytes[3]? with
      | none => Except.error ParseError.Unfinished
      | some low => Except.ok ((high <<< 8) ||| low)
  else if len = 127 then
    if bytes.length < 10 then Except.error ParseError.Unfinished
    else Except.ok (from_be_bytes ((bytes.drop 2).take 8))
  else Except.ok len

/-- Tail of `parse_frame` from the `frame_end` computation on: the final
bounds check and the construction of `Ok((frame_end, Frame { .. }))`.  Here
`frame_end` is `payload_offset + payload_len`, and the payload slice
`bytes[payload_offset..frame_end]` is
`(bytes.drop payload_offset).take payload_len` since
`frame_end - payload_offset = payload_len`. -/
def parse_finish (bytes : List Nat) (fin : Bool) (op : OpCode)
    (mask : Option Nat) (payload_offset payload_len : Nat) : PResult :=
  if bytes.length < payload_offset + payload_len then
    PResult.err ParseError.Unfinished
  else PResult.ok (payload_offset + payload_len)
    { is_last_frag := fin
      op_code := op
      masking_key := mask
      payload := (bytes.drop payload_offset).take payload_len }

/-- Continuation of `parse_frame` after the opcode has been resolved: byte 1
decoding, payload-length resolution, the mask branch, and the final assembly.
The mask branch mirrors the source exactly: after checking
`bytes.len() < mask_offset + 4` it runs
`result.copy_from_slice(&bytes[mask_offset..])`, which panics unless the
source slice — the whole remainder of the buffer — has length exactly 4. -/
def parse_after_op (bytes : List Nat) (byte1 : Nat) (fin : Bool)
    (op : OpCode) : PResult :=
  let is_masked : Bool := byte1 &&& 0b10000000 != 0
  let len := byte1 &&& 0b01111111
  match parse_len bytes len with
  | Except.error e => PResult.err e
  | Except.ok payload_len =>
    let mask_offset := 2 + extra_len_bytes len
    let payload_offset := mask_offset + if is_masked then 4 else 0
    if is_masked then
      if bytes.length < mask_offset + 4 then PResult.err ParseError.Unfinished
      else if (bytes.drop mask_offset).length != 4 then PResult.panicked
      else parse_finish bytes fin op
        (some (from_be_bytes (bytes.drop mask_offset))) payload_offset payload_len
    else parse_finish bytes fin op none payload_offset payload_len

/-- Shallow embedding of `pub fn parse_frame(bytes: &[u8]) ->
Result<(usize, Frame), ParseError>` from `src/bin/client.rs`.  Note the two
faithful transcriptions of the source as written: the FIN flag is computed
with the 7-bit literal `0b1000000` (bit 6), and the reserved check uses
`0b01110000` (bits 6–4).  The source binds `fin` (a pure computation with no
effect) just before the reserved-bit check; that binding is inlined into the
`parse_after_op` call here. -/
def parse_frame (bytes : List Nat) : PResult :=
  match bytes[0]? with
  | none => PResult.err ParseError.Unfinished
  | some byte0 =>
    match bytes[1]? with
    | none => PResult.err ParseError.Unfinished
    | some byte1 =>
      if byte0 &&& 0b01110000 != 0 then PResult.err ParseError.ReservedBit
      else
        match opOfNibble (byte0 &&& 0b00001111) with
        | none => PResult.err ParseError.ReservedOpCode
        | some op => parse_after_op bytes byte1 (byte0 &&& 0b1000000 != 0) op

/-- Opcode table exactly as the claims state it: nibbles `{0x0, 0x1, 0x2,
0x8, 0x9, 0xA}` map to Continuation, Text, Binary, Close, Ping, Pong, every
other nibble is reserved.  Kept separate from `opOfNibble` (transcribed from
the source) so that the two can be compared. -/
def claimOpTable (nib : Nat) : Option OpCode :=
  if nib = 0x0 then some OpCode.Continuation
  else if nib = 0x1 then some OpCode.Text
  else if nib = 0x2 then some OpCode.Binary
  else if nib = 0x8 then some OpCode.Close
  else if nib = 0x9 then some OpCode.Ping
  else if nib = 0xA then some OpCode.Pong
  else none

/-- Payload length as the spec resolves it from the 7-bit base length field:
`len <= 125` is the length itself, `len = 126` reads a big-endian 16-bit
length from bytes 2 and 3, `len = 127` reads a big-endian 64-bit length from
bytes 2 through 9. -/
def resolved_len (bytes : List Nat) (len : Nat) : Nat :=
  if len ≤ 125 then len
  else if len = 126 then 256 * bytes.getD 2 0 + bytes.getD 3 0
  else from_be_bytes ((bytes.drop 2).take 8)

/-! ### Helper lemmas -/

/-- The `(high as u64) << 8 | low as u64` assembly in the `len == 126` arm
equals the big-endian value `256 * high + low` whenever `low` is a byte. -/
theorem shiftLeft_or_byte (h l : Nat) (hl : l < 256) :
    (h <<< 8) ||| l = 256 * h + l := by
  apply Nat.eq_of_testBit_eq
  intro i
  rw [Nat.testBit_or, Nat.testBit_shiftLeft]
  rw [show (256 : Nat) * h + l = 2 ^ 8 * h + l by ring]
  rw [Nat.testBit_mul_pow_two_add h (show l < 2 ^ 8 from hl) i]
  rcases Nat.lt_or_ge i 8 with hi | hi
  · simp [Nat.not_le.mpr hi, hi]
  · have : l.testBit i = false :=
      Nat.testBit_lt_two_pow
        (Nat.lt_of_lt_of_le hl (show (2:ℕ) ^ 8 ≤ 2 ^ i from Nat.pow_le_pow_right (by norm_num) hi))
    simp [this, hi, Nat.not_lt.mpr hi]

/-- A byte whose reserved bits 6–4 are all clear also has bit 6 clear: the
mask `0b1000000` the source uses for FIN is contained in the reserved mask
`0b01110000`. -/
theorem fin_bit_zero_of_reserved_zero (b : Nat) (hb : b &&& 0b01110000 = 0) :
    b &&& 0b1000000 = 0 := by
  have h2 : (0b01110000 : Nat) &&& 0b1000000 = 0b1000000 := by decide
  have h1 : b &&& 0b01110000 &&& 0b1000000 = b &&& 0b1000000 := by
    rw [Nat.and_assoc, h2]
  rw [← h1, hb, Nat.zero_and]

/-- `parse_len` only ever fails with `Unfinished`. -/
theorem parse_len_err_inv {bytes : List Nat} {len : Nat} {e : ParseError}
    (h : parse_len bytes len = Except.error e) : e = ParseError.Unfinished := by
  unfold parse_len at h
  split_ifs at h
  · split at h
    · injection h with h'; exact h'.symm
    · split at h
      · injection h with h'; exact h'.symm
      · exact Except.noConfusion h
  · injection h with h'; exact h'.symm

/-- In the default arm (`len <= 125`) the resolved length is `len` itself. -/
theorem parse_len_default {bytes : List Nat} {len : Nat}
    (h126 : len ≠ 126) (h127 : len ≠ 127) :
    parse_len bytes len = Except.ok len := by
  unfold parse_len
  rw [if_neg h126, if_neg h127]

/-- Successful length resolution with `len = 126` yields the two extended
length bytes. -/
theorem parse_len_126_inv {bytes : List Nat} {pl : Nat}
    (h : parse_len bytes 126 = Except.ok pl) :
    ∃ b2 b3, bytes[2]? = some b2 ∧ bytes[3]? = some b3 ∧
      pl = (b2 <<< 8) ||| b3 := by
  unfold parse_len at h
  rw [if_pos rfl] at h
  split at h
  · exact Except.noConfusion h
  · rename_i b2 h2
    split at h
    · exact Except.noConfusion h
    · rename_i b3 h3
      injection h with h'
      exact ⟨b2, b3, h2, h3, h'.symm⟩

/-- Successful length resolution with `len = 127` needs 10 buffered bytes and
yields the big-endian value of bytes 2–9. -/
theorem parse_len_127_inv {bytes : List Nat} {pl : Nat}
    (h : parse_len bytes 127 = Except.ok pl) :
    10 ≤ bytes.length ∧ pl = from_be_bytes ((bytes.drop 2).take 8) := by
  unfold parse_len at h
  rw [if_neg (by decide), if_pos rfl] at h
  split_ifs at h with hlen
  injection h with h'
  exact ⟨Nat.le_of_not_lt hlen, h'.symm⟩

/-- Inversion for a successful `parse_finish`. -/
theorem parse_finish_ok_inv {bytes : List Nat} {fin : Bool} {op : OpCode}
    {mask : Option Nat} {po pl n : Nat} {f : Frame}
    (h : parse_finish bytes fin op mask po pl = PResult.ok n f) :
    n = po + pl ∧ po + pl ≤ bytes.length ∧
      f = ⟨fin, op, mask, (bytes.drop po).take pl⟩ := by
  unfold parse_finish at h
  split_ifs at h with hlen
  injection h with h1 h2
  exact ⟨h1.symm, Nat.le_of_not_lt hlen, h2.symm⟩

/-- `parse_finish` only ever fails with `Unfinished`. -/
theorem parse_finish_err_inv {bytes : List Nat} {fin : Bool} {op : OpCode}
    {mask : Option Nat} {po pl : Nat} {e : ParseError}
    (h : parse_finish bytes fin op mask po pl = PResult.err e) :
    e = ParseError.Unfinished := by
  unfold parse_finish at h
  split_ifs at h
  injection h with h'
  exact h'.symm

/-- Full inversion for a successful `parse_after_op`: the payload length came
from `parse_len`, the consumed count is the header size plus the payload
length and fits in the buffer, the frame fields are as assembled, and a
masked success forces the buffer to end exactly four bytes after
`mask_offset` — the `copy_from_slice` panic otherwise rules the case out. -/
theorem parse_after_op_ok_inv {bytes : List Nat} {b1 : Nat} {fin : Bool}
    {op : OpCode} {n : Nat} {f : Frame}
    (h : parse_after_op bytes b1 fin op = PResult.ok n f) :
    ∃ pl, parse_len bytes (b1 &&& 0b01111111) = Except.ok pl ∧
      n = 2 + extra_len_bytes (b1 &&& 0b01111111) +
          (if b1 &&& 0b10000000 != 0 then 4 else 0) + pl ∧
      n ≤ bytes.length ∧
      f.is_last_frag = fin ∧ f.op_code = op ∧
      f.masking_key = (if b1 &&& 0b10000000 != 0 then
        some (from_be_bytes (bytes.drop (2 + extra_len_bytes (b1 &&& 0b01111111))))
        else none) ∧
      f.payload = (bytes.drop (2 + extra_len_bytes (b1 &&& 0b01111111) +
          (if b1 &&& 0b10000000 != 0 then 4 else 0))).take pl ∧
      ((b1 &&& 0b10000000 != 0) = true →
        bytes.length = 2 + extra_len_bytes (b1 &&& 0b01111111) + 4) := by
  simp only [parse_after_op] at h
  split at h
  · exact PResult.noConfusion h
  · rename_i pl hpl
    by_cases hm : (b1 &&& 0b10000000 != 0) = true
    · rw [if_pos hm] at h
      split_ifs at h with hshort hpanic
      obtain ⟨hn, hle, hf⟩ := parse_finish_ok_inv h
      have hdrop : (bytes.drop (2 + extra_len_bytes (b1 &&& 0b01111111))).length = 4 := by
        simpa using hpanic
      rw [List.length_drop] at hdrop
      have hlen4 : bytes.length = 2 + extra_len_bytes (b1 &&& 0b01111111) + 4 := by
        omega
      refine ⟨pl, hpl, ?_, ?_, ?_, ?_, ?_, ?_, fun _ => hlen4⟩
      · rw [hn]; simp [hm]
      · rw [hn]; exact hle
      · rw [hf]
      · rw [hf]
      · rw [hf]; simp [hm]
      · rw [hf]; simp [hm]
    · rw [if_neg hm] at h
      obtain ⟨hn, hle, hf⟩ := parse_finish_ok_inv h
      refine ⟨pl, hpl, ?_, ?_, ?_, ?_, ?_, ?_, fun hc => absurd hc hm⟩
      · rw [hn]
      · rw [hn]; exact hle
      · rw [hf]
      · rw [hf]
      · rw [hf]; simp [hm]
      · rw [hf]

/-- `parse_after_op` never reports `ReservedBit` or `ReservedOpCode`: its only
error is `Unfinished`. -/
theorem parse_after_op_err_inv {bytes : List Nat} {b1 : Nat} {fin : Bool}
    {op : OpCode} {e : ParseError}
    (h : parse_after_op bytes b1 fin op = PResult.err e) :
    e = ParseError.Unfinished := by
  simp only [parse_after_op] at h
  split at h
  · rename_i e' he
    injection h with h'
    rw [← h']
    exact parse_len_err_inv he
  · split_ifs at h
    · injection h with h'; exact h'.symm
    · exact parse_finish_err_inv h
    · exact parse_finish_err_inv h

/-- Inversion for a successful `parse_frame`: both header bytes exist, the
reserved-bit check passed, the opcode nibble is defined, and the rest of the
computation succeeded. -/
theorem parse_frame_ok_inv {bytes : List Nat} {n : Nat} {f : Frame}
    (h : parse_frame bytes = PResult.ok n f) :
    ∃ b0 b1 op, bytes[0]? = some b0 ∧ bytes[1]? = some b1 ∧
      b0 &&& 0b01110000 = 0 ∧ opOfNibble (b0 &&& 0b00001111) = some op ∧
      parse_after_op bytes b1 (b0 &&& 0b1000000 != 0) op = PResult.ok n f := by
  unfold parse_frame at h
  split at h
  · exact PResult.noConfusion h
  · rename_i b0 h0
    split at h
    · exact PResult.noConfusion h
    · rename_i b1 h1
      split_ifs at h with hres
      split at h
      · exact PResult.noConfusion h
      · rename_i op hop
        refine ⟨b0, b1, op, h0, h1, ?_, hop, h⟩
        simpa using hres

/-- When the two header bytes exist, the reserved bits are clear and the
opcode nibble is defined, `parse_frame` is `parse_after_op`. -/
theorem parse_frame_eq_after_op {bytes : List Nat} {b0 b1 : Nat} {op : OpCode}
    (h0 : bytes[0]? = some b0) (h1 : bytes[1]? = some b1)
    (hres : b0 &&& 0b01110000 = 0)
    (hop : opOfNibble (b0 &&& 0b00001111) = some op) :
    parse_frame bytes = parse_after_op bytes b1 (b0 &&& 0b1000000 != 0) op := by
  simp [parse_frame, h0, h1, hres, hop]

/-- A buffer shorter than the two mandatory header bytes is `Unfinished`. -/
theorem parse_frame_short {l : List Nat} (h : l.length < 2) :
    parse_frame l = PResult.err ParseError.Unfinished := by
  match l with
  | [] => rfl
  | [a] => rfl
  | a :: b :: t => simp at h; omega

/-! ### Claim theorems -/

/-- C1: the claim says `parse_frame` is total — every input resolves to `Ok`
or a `ParseError`, and in particular the mask-key extraction branch is total
for all buffer lengths.  The code refutes this: on the masked frame
`[0x81, 0x81, 0, 0, 0, 0, 0x41]` (masked, payload length 1) the
`copy_from_slice(&bytes[mask_offset..])` call receives a 5-byte source slice
for a 4-byte destination and panics. -/
theorem mask_branch_panics :
    parse_frame [0x81, 0x81, 0x00, 0x00, 0x00, 0x00, 0x41] = PResult.panicked := by
  decide

/-- C2: the claim says the decoded `is_last_fragment` flag equals bit 7 of
byte 0 (and that the reserved check covers exactly bits 6–4).  The code reads
FIN with the 7-bit literal `0b1000000` (bit 6): on `[0x81, 0x00]` byte 0 has
bit 7 set, yet the decoded flag is `false`. -/
theorem fin_flag_reads_bit6 :
    parse_frame [0x81, 0x00] =
      PResult.ok 2 ⟨false, OpCode.Text, none, []⟩ ∧
    Nat.testBit 0x81 7 = true ∧ 0x81 &&& 0b10000000 ≠ 0 := by
  decide

/-- C3: the claim says `[0x81, 0x05, 'H','e','l','l','o']` decodes with
`consumed = 7`, opcode `Text`, no mask, payload "Hello" and
`is_last_fragment = true`.  The code gets everything right except the FIN
flag, which comes out `false` because of the bit-6 mask. -/
theorem hello_frame_eval :
    parse_frame [0x81, 0x05, 72, 101, 108, 108, 111] =
      PResult.ok 7 ⟨false, OpCode.Text, none, [72, 101, 108, 108, 111]⟩ := by
  decide

/-- C4: every frame `parse_frame` actually returns has `is_last_frag =
false`: the bit the code tests for FIN (bit 6, mask `0b1000000`) lies inside
the reserved-bits mask `0b01110000`, so any input with that bit set is
rejected with `ReservedBit` before a frame can be produced. -/
theorem ok_frames_have_fin_false (bytes : List Nat) (n : Nat) (f : Frame)
    (h : parse_frame bytes = PResult.ok n f) : f.is_last_frag = false := by
  obtain ⟨b0, b1, op, h0, h1, hres, hop, hafter⟩ := parse_frame_ok_inv h
  obtain ⟨pl, _, _, _, hfin, _⟩ := parse_after_op_ok_inv hafter
  rw [hfin]
  have hz : b0 &&& 0b1000000 = 0 := fin_bit_zero_of_reserved_zero b0 hres
  simp [hz]

/-- Witness for C4 at the concrete accepted input `[0x01, 0x00]`. -/
theorem ok_frames_have_fin_false_witness :
    (Frame.mk false OpCode.Text none []).is_last_frag = false :=
  ok_frames_have_fin_false [0x01, 0x00] 2 (Frame.mk false OpCode.Text none [])
    (by decide)

/-- C6: the claim says a successful parse consumes at most the buffer and is
unchanged by appending extra bytes.  The code refutes the second part: the
masked empty frame `[0x01, 0x80, 1, 2, 3, 4]` parses fine, but with one byte
appended the mask extraction's `copy_from_slice` sees a 5-byte source slice
and panics instead of returning the same result. -/
theorem trailing_byte_changes_result :
    parse_frame [0x01, 0x80, 1, 2, 3, 4] =
      PResult.ok 6 ⟨false, OpCode.Text, some 0x01020304, []⟩ ∧
    parse_frame ([0x01, 0x80, 1, 2, 3, 4] ++ [0x00]) = PResult.panicked := by
  decide

/-- C8: the claim says a masked frame decodes like its unmasked twin with
`consumed` exactly 4 larger and `masking_key = Some(key)`.  The code refutes
this for any nonempty payload: the unmasked `[0x01, 0x01, 0x41]` parses with
`consumed = 3`, but its masked twin `[0x01, 0x81, 1, 2, 3, 4, 0x41]` panics
in `copy_from_slice` instead of returning `consumed = 7`. -/
theorem masked_twin_panics :
    parse_frame [0x01, 0x01, 0x41] =
      PResult.ok 3 ⟨false, OpCode.Text, none, [0x41]⟩ ∧
    parse_frame [0x01, 0x81, 1, 2, 3, 4, 0x41] = PResult.panicked := by
  decide

/-- C9: any input of at least 2 bytes whose first byte has one of bits 6–4
set is rejected with `ReservedBit`, regardless of the opcode nibble. -/
theorem reserved_bits_rejected (bytes : List Nat) (b0 b1 : Nat)
    (h0 : bytes[0]? = some b0) (h1 : bytes[1]? = some b1)
    (hbit : b0.testBit 4 = true ∨ b0.testBit 5 = true ∨ b0.testBit 6 = true) :
    parse_frame bytes = PResult.err ParseError.ReservedBit := by
  have hres : b0 &&& 0b01110000 ≠ 0 := by
    intro hz
    have hz4 : ∀ i, (b0 &&& 0b01110000).testBit i = false := by
      intro i; rw [hz]; exact Nat.zero_testBit i
    rcases hbit with hb | hb | hb
    · have h4 := hz4 4
      rw [Nat.testBit_and, hb, Bool.true_and] at h4
      exact absurd h4 (by decide)
    · have h5 := hz4 5
      rw [Nat.testBit_and, hb, Bool.true_and] at h5
      exact absurd h5 (by decide)
    · have h6 := hz4 6
      rw [Nat.testBit_and, hb, Bool.true_and] at h6
      exact absurd h6 (by decide)
  simp [parse_frame, h0, h1, hres]

/-- Witness for C9: `[0x50, 0x00]` has bits 6 and 4 of byte 0 set and is
rejected with `ReservedBit`. -/
theorem reserved_bits_rejected_witness :
    parse_frame [0x50, 0x00] = PResult.err ParseError.ReservedBit :=
  reserved_bits_rejected [0x50, 0x00] 0x50 0x00 (by decide) (by decide)
    (Or.inl (by decide))

/-- C10: with bits 6–4 of byte 0 clear, an opcode nibble outside
`{0x0, 0x1, 0x2, 0x8, 0x9, 0xA}` makes `parse_frame` return
`ReservedOpCode`, while a nibble in that set maps to Continuation, Text,
Binary, Close, Ping, Pong respectively (witnessed by the decoded frame's
`op_code` whenever a frame is produced, and by `ReservedOpCode` being
impossible). -/
theorem opcode_nibble_mapping (bytes : List Nat) (b0 b1 : Nat)
    (h0 : bytes[0]? = some b0) (h1 : bytes[1]? = some b1)
    (hres : b0 &&& 0b01110000 = 0) :
    (claimOpTable (b0 &&& 0b00001111) = none →
      parse_frame bytes = PResult.err ParseError.ReservedOpCode) ∧
    ∀ op, claimOpTable (b0 &&& 0b00001111) = some op →
      parse_frame bytes ≠ PResult.err ParseError.ReservedOpCode ∧
      ∀ n f, parse_frame bytes = PResult.ok n f → f.op_code = op := by
  have htab : claimOpTable (b0 &&& 0b00001111) = opOfNibble (b0 &&& 0b00001111) := by
    have hlt : b0 &&& 0b00001111 < 16 := Nat.lt_succ_of_le Nat.and_le_right
    revert hlt
    generalize b0 &&& 0b00001111 = m
    revert m
    decide
  constructor
  · intro hnone
    rw [htab] at hnone
    simp [parse_frame, h0, h1, hres, hnone]
  · intro op hsome
    rw [htab] at hsome
    have heq := parse_frame_eq_after_op h0 h1 hres hsome
    constructor
    · rw [heq]
      intro hbad
      exact absurd (parse_after_op_err_inv hbad) (by decide)
    · intro n f hok
      rw [heq] at hok
      obtain ⟨pl, _, _, _, _, hopc, _⟩ := parse_after_op_ok_inv hok
      exact hopc

/-- Witness for C10 at the spec's concrete scenario `[0x8F, 0x00]`: nibble
`0xF` is reserved. -/
theorem opcode_nibble_mapping_witness :
    parse_frame [0x8F, 0x00] = PResult.err ParseError.ReservedOpCode :=
  (opcode_nibble_mapping [0x8F, 0x00] 0x8F 0x00 (by decide) (by decide)
    (by decide)).1 (by decide)

/-- C7: for any input whose first byte passes validation, the payload length
is resolved from the 7-bit base length field of byte 1: `len <= 125` stands
for itself with no extra length bytes, `len = 126` needs 2 extra big-endian
bytes (else `Unfinished`), `len = 127` needs 8 (else `Unfinished`), and a
successful parse returns a payload of exactly the resolved length, with the
consumed count accounting for 0/2/8 extra length bytes. -/
theorem payload_len_resolution (bytes : List Nat) (b0 b1 : Nat) (op : OpCode)
    (hwf : ∀ b ∈ bytes, b < 256)
    (h0 : bytes[0]? = some b0) (h1 : bytes[1]? = some b1)
    (hres : b0 &&& 0b01110000 = 0)
    (hop : opOfNibble (b0 &&& 0b00001111) = some op) :
    (b1 &&& 0b01111111 = 126 → bytes.length < 4 →
      parse_frame bytes = PResult.err ParseError.Unfinished) ∧
    (b1 &&& 0b01111111 = 127 → bytes.length < 10 →
      parse_frame bytes = PResult.err ParseError.Unfinished) ∧
    ∀ n f, parse_frame bytes = PResult.ok n f →
      f.payload.length = resolved_len bytes (b1 &&& 0b01111111) ∧
      n = 2 + extra_len_bytes (b1 &&& 0b01111111) +
          (if b1 &&& 0b10000000 != 0 then 4 else 0) +
          resolved_len bytes (b1 &&& 0b01111111) := by
  have heq := parse_frame_eq_after_op h0 h1 hres hop
  refine ⟨?_, ?_, ?_⟩
  · intro h126 hlen
    rw [heq]
    have hplen : parse_len bytes (b1 &&& 0b01111111) =
        Except.error ParseError.Unfinished := by
      rw [h126]
      unfold parse_len
      rw [if_pos rfl]
      cases h2 : bytes[2]? with
      | none => simp [h2]
      | some b2 =>
        have h3 : bytes[3]? = none := List.getElem?_eq_none_iff.mpr (by omega)
        simp [h2, h3]
    simp [parse_after_op, hplen]
  · intro h127 hlen
    rw [heq]
    have hplen : parse_len bytes (b1 &&& 0b01111111) =
        Except.error ParseError.Unfinished := by
      rw [h127]
      unfold parse_len
      rw [if_neg (by decide), if_pos rfl, if_pos hlen]
    simp [parse_after_op, hplen]
  · intro n f hok
    rw [heq] at hok
    obtain ⟨pl, hpl, hn, hle, hfin, hopc, hmask, hpayload, hmlen⟩ :=
      parse_after_op_ok_inv hok
    have hplr : pl = resolved_len bytes (b1 &&& 0b01111111) := by
      by_cases h126 : b1 &&& 0b01111111 = 126
      · rw [h126] at hpl ⊢
        obtain ⟨b2, b3, h2, h3, hpl2⟩ := parse_len_126_inv hpl
        have hb3 : b3 < 256 := hwf b3 (List.getElem?_mem h3)
        rw [hpl2, shiftLeft_or_byte b2 b3 hb3]
        simp [resolved_len, List.getD_eq_getElem?_getD, h2, h3]
      · by_cases h127 : b1 &&& 0b01111111 = 127
        · rw [h127] at hpl ⊢
          obtain ⟨hge, hpl2⟩ := parse_len_127_inv hpl
          rw [hpl2]
          simp [resolved_len]
        · have hle125 : b1 &&& 0b01111111 ≤ 125 := by
            have h127le : b1 &&& 0b01111111 ≤ 127 := Nat.and_le_right
            omega
          rw [parse_len_default h126 h127] at hpl
          injection hpl with h'
          rw [← h']
          simp [resolved_len, hle125]
    have hpl_len : f.payload.length = pl := by
      rw [hpayload, List.length_take, List.length_drop]
      generalize hK : 2 + extra_len_bytes (b1 &&& 0b01111111) +
        (if b1 &&& 0b10000000 != 0 then 4 else 0) = K at hn
      omega
    exact ⟨hplr ▸ hpl_len, hplr ▸ hn⟩

/-- Witness for C7 at the 16-bit-length frame `[0x01, 126, 0, 3, 9, 9, 9]`
(base length field 126, extended length 3). -/
theorem payload_len_resolution_witness :
    (Frame.mk false OpCode.Text none [9, 9, 9]).payload.length =
      resolved_len [0x01, 126, 0, 3, 9, 9, 9] (126 &&& 0b01111111) ∧
    7 = 2 + extra_len_bytes (126 &&& 0b01111111) +
        (if (126 : Nat) &&& 0b10000000 != 0 then 4 else 0) +
        resolved_len [0x01, 126, 0, 3, 9, 9, 9] (126 &&& 0b01111111) :=
  (payload_len_resolution [0x01, 126, 0, 3, 9, 9, 9] 0x01 126 OpCode.Text
    (by decide) (by decide) (by decide) (by decide) (by decide)).2.2
    7 (Frame.mk false OpCode.Text none [9, 9, 9]) (by decide)

/-- A masked parse on a buffer shorter than `mask_offset + 4` stops with
`Unfinished` at the mask-presence guard. -/
theorem after_op_masked_short {l : List Nat} {b1 : Nat} {fin : Bool}
    {op : OpCode} {pl : Nat}
    (hplen : parse_len l (b1 &&& 0b01111111) = Except.ok pl)
    (hm : (b1 &&& 0b10000000 != 0) = true)
    (hshort : l.length < 2 + extra_len_bytes (b1 &&& 0b01111111) + 4) :
    parse_after_op l b1 fin op = PResult.err ParseError.Unfinished := by
  simp [parse_after_op, hplen, hm, hshort]

/-- An unmasked parse on a buffer shorter than the full frame stops with
`Unfinished` at the final length guard. -/
theorem after_op_unmasked_short {l : List Nat} {b1 : Nat} {fin : Bool}
    {op : OpCode} {pl : Nat}
    (hplen : parse_len l (b1 &&& 0b01111111) = Except.ok pl)
    (hm : (b1 &&& 0b10000000 != 0) = false)
    (hshort : l.length < 2 + extra_len_bytes (b1 &&& 0b01111111) + pl) :
    parse_after_op l b1 fin op = PResult.err ParseError.Unfinished := by
  simp [parse_after_op, parse_finish, hplen, hm, hshort]

/-- Common ending for the strict-prefix argument: once the prefix resolves
the same payload length as the full (fully consumed) parse, the remaining
guards all stop with `Unfinished` because the prefix is shorter than the
frame. -/
theorem after_op_take_unfinished {bytes : List Nat} {b1 : Nat} {fin : Bool}
    {op : OpCode} {pl k : Nat}
    (hplen' : parse_len (bytes.take k) (b1 &&& 0b01111111) = Except.ok pl)
    (hn : bytes.length = 2 + extra_len_bytes (b1 &&& 0b01111111) +
      (if b1 &&& 0b10000000 != 0 then 4 else 0) + pl)
    (hmlen : (b1 &&& 0b10000000 != 0) = true →
      bytes.length = 2 + extra_len_bytes (b1 &&& 0b01111111) + 4)
    (hk : k < bytes.length) :
    parse_after_op (bytes.take k) b1 fin op =
      PResult.err ParseError.Unfinished := by
  have hlenk : (bytes.take k).length = k := by rw [List.length_take]; omega
  cases hq : (b1 &&& 0b10000000 != 0) with
  | true =>
    refine after_op_masked_short hplen' hq ?_
    rw [hlenk]
    have h4 := hmlen hq
    omega
  | false =>
    rw [hq] at hn
    simp at hn
    refine after_op_unmasked_short hplen' hq ?_
    rw [hlenk]
    omega

/-- C5: for every byte sequence that `parse_frame` accepts in full (the
consumed count equals the buffer length), every strict prefix parses to
`Err(Unfinished)` — never a data-based error, a success, or a panic. -/
theorem strict_prefix_unfinished (bytes : List Nat) (f : Frame) (k : Nat)
    (hfull : parse_frame bytes = PResult.ok bytes.length f)
    (hk : k < bytes.length) :
    parse_frame (bytes.take k) = PResult.err ParseError.Unfinished := by
  rcases Nat.lt_or_ge k 2 with hk2 | hk2
  · exact parse_frame_short (by rw [List.length_take]; omega)
  · obtain ⟨b0, b1, op, h0, h1, hres, hop, hafter⟩ := parse_frame_ok_inv hfull
    obtain ⟨pl, hpl, hn, hle, hfin, hopc, hmask, hpayload, hmlen⟩ :=
      parse_after_op_ok_inv hafter
    have hlenk : (bytes.take k).length = k := by rw [List.length_take]; omega
    have h0' : (bytes.take k)[0]? = some b0 := by
      rw [List.getElem?_take_of_lt (by omega)]; exact h0
    have h1' : (bytes.take k)[1]? = some b1 := by
      rw [List.getElem?_take_of_lt (by omega)]; exact h1
    rw [parse_frame_eq_after_op h0' h1' hres hop]
    by_cases h126 : b1 &&& 0b01111111 = 126
    · rcases Nat.lt_or_ge k 4 with hk4 | hk4
      · have hplen' : parse_len (bytes.take k) (b1 &&& 0b01111111) =
            Except.error ParseError.Unfinished := by
          rw [h126]
          unfold parse_len
          rw [if_pos rfl]
          cases h2 : (bytes.take k)[2]? with
          | none => rfl
          | some b2 =>
            have h3 : (bytes.take k)[3]? = none :=
              List.getElem?_eq_none_iff.mpr (by rw [hlenk]; omega)
            rw [h3]
        simp [parse_after_op, hplen']
      · rw [h126] at hpl
        obtain ⟨b2, b3, h2, h3, hpl2⟩ := parse_len_126_inv hpl
        have h2' : (bytes.take k)[2]? = some b2 := by
          rw [List.getElem?_take_of_lt (by omega)]; exact h2
        have h3' : (bytes.take k)[3]? = some b3 := by
          rw [List.getElem?_take_of_lt (by omega)]; exact h3
        have hplen' : parse_len (bytes.take k) (b1 &&& 0b01111111) =
            Except.ok pl := by
          rw [h126]
          unfold parse_len
          rw [if_pos rfl]
          simp [h2', h3', hpl2]
        exact after_op_take_unfinished hplen' hn hmlen hk
    · by_cases h127 : b1 &&& 0b01111111 = 127
      · rcases Nat.lt_or_ge k 10 with hk10 | hk10
        · have hplen' : parse_len (bytes.take k) (b1 &&& 0b01111111) =
              Except.error ParseError.Unfinished := by
            rw [h127]
            unfold parse_len
            rw [if_neg (by decide), if_pos rfl, if_pos (by rw [hlenk]; omega)]
          simp [parse_after_op, hplen']
        · rw [h127] at hpl
          obtain ⟨hge, hpl2⟩ := parse_len_127_inv hpl
          have hslice : ((bytes.take k).drop 2).take 8 = (bytes.drop 2).take 8 := by
            rw [List.drop_take, List.take_take]
            congr 1
            omega
          have hplen' : parse_len (bytes.take k) (b1 &&& 0b01111111) =
              Except.ok pl := by
            rw [h127]
            unfold parse_len
            rw [if_neg (by decide), if_pos rfl, if_neg (by rw [hlenk]; omega)]
            rw [hslice, hpl2]
          exact after_op_take_unfinished hplen' hn hmlen hk
      · have hplen' : parse_len (bytes.take k) (b1 &&& 0b01111111) =
            Except.ok pl := by
          rw [parse_len_default h126 h127] at hpl
          injection hpl with h'
          rw [parse_len_default h126 h127, h']
        exact after_op_take_unfinished hplen' hn hmlen hk

/-- Witness for C5 at the spec's concrete scenario: `[0x81]` is a strict
prefix of the accepted frame `[0x81, 0x00]` and returns `Unfinished`. -/
theorem strict_prefix_unfinished_witness :
    parse_frame [0x81] = PResult.err ParseError.Unfinished :=
  strict_prefix_unfinished [0x81, 0x00] (Frame.mk false OpCode.Text none []) 1
    (by decide) (by decide)
